import Mathlib

/-!
# Verification of the devvault entry-execution engine

A shallow embedding of the devvault CLI's core modules, translated from the
Python sources:

* `devvault/utils.py` — the variable resolver (`extract_variables`,
  `substitute_variables`, `prompt_for_variables`);
* `devvault/executor.py` — the entry executor (`execute_api`,
  `execute_playbook`, `execute_entry`);
* `devvault/models.py` — entry construction and update
  (`create_entry`, `update_entry`);
* `devvault/cli.py` / `devvault/db.py` — the edit and import paths.

Conventions of the embedding:

* Python `dict`s are modelled as association lists in insertion order
  (Python dicts iterate in insertion order; assigning an existing key keeps
  its position).
* Nondeterministic inputs (generated ids, clock readings, user keyboard
  input, subprocess results, HTTP responses) are passed in explicitly.
* Side effects (console prints, subprocess spawns, HTTP requests) are
  recorded in an explicit effect trace.
* Exceptions that the code catches (`json.JSONDecodeError`,
  `requests.RequestException`, `ValueError`) are modelled with `Option`.
-/

set_option autoImplicit false

namespace DevVault

/-! ## Variable resolver (`devvault/utils.py`)

`extract_variables` uses `re.findall` with pattern `\x7b\x7b(\w+)\x7d\x7d`:
two literal opening braces, one or more word characters (captured), two
literal closing braces.  `substitute_variables` loops over the value
mapping and uses Python's literal `str.replace`.
-/

/-- ASCII word characters, as matched by the regex class `\w`.
(Python's `\w` additionally matches non-ASCII Unicode word characters;
no input in this development uses them.) -/
def isWordChar (c : Char) : Bool := c.isAlpha || c.isDigit || c = '_'

/-- Longest prefix of word characters of a character list, together with
the remainder.  This is the greedy `\w+` step of the regex. -/
def takeWord : List Char → List Char × List Char
  | [] => ([], [])
  | c :: cs =>
    if isWordChar c then
      let p := takeWord cs
      (c :: p.1, p.2)
    else ([], c :: cs)

/-- Try to match the regex `\x7b\x7b(\w+)\x7d\x7d` at the start of the
input: literal `\x7b\x7b`, then a nonempty greedy run of word characters,
then literal `\x7d\x7d`.  On success, return the captured name and the
remainder after the match.  (Backtracking the greedy `\w+` can never help:
`\x7d` is not a word character, so if the full word run is not followed by
`\x7d\x7d`, no shorter run is either.) -/
def matchPlaceholder (s : List Char) : Option (List Char × List Char) :=
  if s.take 2 = ['{', '{'] then
    let p := takeWord (s.drop 2)
    if p.1 ≠ [] ∧ p.2.take 2 = ['}', '}'] then some (p.1, p.2.drop 2) else none
  else none

/-- Scanner for `re.findall`: try the pattern at each position, left to
right.  `re.findall` resumes scanning after the end of each match; this
scanner resumes at the next character instead, which yields the same match
list because no match can start strictly inside another match (a name is
made of word characters, so the only `\x7b\x7b` in a matched region is at
its start).  `extractAux_match` below proves the resume-after-match
equation. -/
def extractAux : List Char → List (List Char)
  | [] => []
  | c :: cs =>
    match matchPlaceholder (c :: cs) with
    | some p => p.1 :: extractAux cs
    | none => extractAux cs

/-- `utils.extract_variables`: all `\x7b\x7b(\w+)\x7d\x7d` capture groups,
in order of occurrence, duplicates preserved. -/
def extract_variables (content : String) : List String :=
  (extractAux content.data).map String.mk

/-- Python `str.replace pat rep` for a nonempty pattern: replace every
non-overlapping occurrence, scanning left to right.  The fuel argument is
an upper bound on the number of scan steps; each step consumes at least
one character, so fuel `s.length` computes the untruncated result. -/
def replaceAllFuel : Nat → List Char → List Char → List Char → List Char
  | 0, s, _, _ => s
  | _ + 1, [], _, _ => []
  | fuel + 1, c :: cs, pat, rep =>
    if pat.isPrefixOf (c :: cs) ∧ pat ≠ [] then
      rep ++ replaceAllFuel fuel ((c :: cs).drop pat.length) pat rep
    else
      c :: replaceAllFuel fuel cs pat rep

/-- Python `str.replace` (for the nonempty patterns used here). -/
def replaceAll (s pat rep : List Char) : List Char :=
  replaceAllFuel s.length s pat rep

/-- The literal pattern Python builds with `f"\x7b\x7b\x7b\x7b\x7bvar\x7d\x7d\x7d\x7d\x7d"`,
i.e. `\x7b\x7b` + name + `\x7d\x7d`. -/
def mkPattern (var : String) : List Char :=
  '{' :: '{' :: var.data ++ ['}', '}']

/-- `utils.substitute_variables`: fold over the value mapping in insertion
order, replacing every literal occurrence of `\x7b\x7bvar\x7d\x7d` by the
value. -/
def substitute_variables (content : String) (vals : List (String × String)) : String :=
  vals.foldl (fun result p => String.mk (replaceAll result.data (mkPattern p.1) p.2.data)) content

/-- Python dict assignment on an association list: overwrite the value of
an existing key in place (keeping its position), else append. -/
def dictAssign : List (String × String) → String → String → List (String × String)
  | [], k, v => [(k, v)]
  | (k', v') :: m, k, v =>
    if k' = k then (k', v) :: m else (k', v') :: dictAssign m k v

/-- Whether `pat` occurs as a contiguous substring of `s`. -/
def containsSub (s pat : List Char) : Bool :=
  match s with
  | [] => pat.isEmpty
  | c :: cs => pat.isPrefixOf (c :: cs) || containsSub cs pat

/-- Python `str.lower` (per-character ASCII lowercasing, as `str.lower`
acts on the ASCII inputs that occur here). -/
def strLower (s : String) : String := String.mk (s.data.map Char.toLower)

/-- Python `str.upper` (per-character ASCII uppercasing). -/
def strUpper (s : String) : String := String.mk (s.data.map Char.toUpper)

/-! ## JSON values and `json.loads` (used by `executor.execute_api`)

The executor only distinguishes whether the parsed value is a `dict`, a
`str`, or anything else, so numbers are kept as their lexemes.  The parser
models Python's strict `json.loads`: a single JSON value with optional
surrounding whitespace.  (Simplifications that no input here exercises:
`\uXXXX` string escapes and the `NaN`/`Infinity` extensions are rejected.)
-/

/-- JSON values as produced by `json.loads`. -/
inductive Json where
  | null
  | bool (value : Bool)
  | num (lexeme : String)
  | str (value : String)
  | arr (items : List Json)
  | obj (entries : List (String × Json))

/-- JSON whitespace characters. -/
def isJsonWs (c : Char) : Bool :=
  [' ', '\t', '\n', '\r'].contains c

/-- Drop leading JSON whitespace. -/
def skipWs : List Char → List Char
  | [] => []
  | c :: cs => if isJsonWs c then skipWs cs else c :: cs

/-- One-character string escapes accepted by JSON: `n`, `t`, `r`, `b`
and `f` name control characters, and a quote, backslash or slash stands
for itself. -/
def escChar (c : Char) : Option Char :=
  if c = 'n' then some '\n'
  else if c = 't' then some '\t'
  else if c = 'r' then some '\r'
  else if c = '"' ∨ c = '\\' ∨ c = '/' then some c
  else if c = 'b' then some (Char.ofNat 8)
  else if c = 'f' then some (Char.ofNat 12)
  else none

/-- Parse the body of a JSON string after the opening quote; returns the
decoded characters and the remainder after the closing quote. -/
def parseStringBody : List Char → Option (List Char × List Char)
  | [] => none
  | '"' :: rest => some ([], rest)
  | '\\' :: e :: rest =>
    match escChar e with
    | some c => (parseStringBody rest).map fun p => (c :: p.1, p.2)
    | none => none
  | c :: rest => (parseStringBody rest).map fun p => (c :: p.1, p.2)

/-- Greedy run of decimal digits. -/
def digitRun : List Char → List Char × List Char
  | [] => ([], [])
  | c :: cs =>
    if c.isDigit then
      let p := digitRun cs
      (c :: p.1, p.2)
    else ([], c :: cs)

/-- JSON integer part: `0` or a nonzero digit followed by digits. -/
def parseIntPart : List Char → Option (List Char × List Char)
  | '0' :: cs => some (['0'], cs)
  | c :: cs =>
    if c.isDigit then
      let p := digitRun cs
      some (c :: p.1, p.2)
    else none
  | [] => none

/-- Optional JSON fraction part `.digits`; rolls back if absent or malformed. -/
def parseFracPart (s : List Char) : List Char × List Char :=
  match s with
  | '.' :: cs =>
    let p := digitRun cs
    if p.1 = [] then ([], s) else ('.' :: p.1, p.2)
  | _ => ([], s)

/-- Optional JSON exponent part; rolls back if absent or malformed. -/
def parseExpPart (s : List Char) : List Char × List Char :=
  match s with
  | c :: cs =>
    if c = 'e' ∨ c = 'E' then
      match cs with
      | sgn :: cs2 =>
        if sgn = '+' ∨ sgn = '-' then
          let p := digitRun cs2
          if p.1 = [] then ([], s) else (c :: sgn :: p.1, p.2)
        else
          let p := digitRun cs
          if p.1 = [] then ([], s) else (c :: p.1, p.2)
      | [] => ([], s)
    else ([], s)
  | [] => ([], s)

/-- JSON number without the leading sign. -/
def parseNumberCore (s : List Char) : Option (List Char × List Char) :=
  match parseIntPart s with
  | none => none
  | some (ip, r1) =>
    let f := parseFracPart r1
    let e := parseExpPart f.2
    some (ip ++ f.1 ++ e.1, e.2)

/-- JSON number literal (lexeme and remainder). -/
def parseNumber : List Char → Option (List Char × List Char)
  | '-' :: cs => (parseNumberCore cs).map fun p => ('-' :: p.1, p.2)
  | cs => parseNumberCore cs

mutual

/-- Parse one JSON value (fuelled; fuel `length + 1` always suffices
because every recursive call first consumes at least one character). -/
def parseValue : Nat → List Char → Option (Json × List Char)
  | 0, _ => none
  | fuel + 1, s0 =>
    match skipWs s0 with
    | [] => none
    | c :: cs =>
      if c = '"' then
        (parseStringBody cs).map fun p => (Json.str (String.mk p.1), p.2)
      else if c = '{' then
        match skipWs cs with
        | '}' :: rest => some (Json.obj [], rest)
        | s2 => (parseMembers fuel s2).map fun p => (Json.obj p.1, p.2)
      else if c = '[' then
        match skipWs cs with
        | ']' :: rest => some (Json.arr [], rest)
        | s2 => (parseElems fuel s2).map fun p => (Json.arr p.1, p.2)
      else if ("null".data).isPrefixOf (c :: cs) then
        some (Json.null, (c :: cs).drop 4)
      else if ("true".data).isPrefixOf (c :: cs) then
        some (Json.bool true, (c :: cs).drop 4)
      else if ("false".data).isPrefixOf (c :: cs) then
        some (Json.bool false, (c :: cs).drop 5)
      else
        (parseNumber (c :: cs)).map fun p => (Json.num (String.mk p.1), p.2)

/-- Parse the members of a JSON object after the opening brace (nonempty case). -/
def parseMembers : Nat → List Char → Option (List (String × Json) × List Char)
  | 0, _ => none
  | fuel + 1, s =>
    match skipWs s with
    | '"' :: cs =>
      match parseStringBody cs with
      | none => none
      | some (key, afterKey) =>
        match skipWs afterKey with
        | ':' :: afterColon =>
          match parseValue fuel afterColon with
          | none => none
          | some (v, afterVal) =>
            match skipWs afterVal with
            | ',' :: more => (parseMembers fuel more).map fun p => ((String.mk key, v) :: p.1, p.2)
            | '}' :: more => some ([(String.mk key, v)], more)
            | _bad => none
        | _bad => none
    | _bad => none

/-- Parse the elements of a JSON array after the opening bracket (nonempty case). -/
def parseElems : Nat → List Char → Option (List Json × List Char)
  | 0, _ => none
  | fuel + 1, s =>
    match parseValue fuel s with
    | none => none
    | some (v, afterVal) =>
      match skipWs afterVal with
      | ',' :: more => (parseElems fuel more).map fun p => (v :: p.1, p.2)
      | ']' :: more => some ([v], more)
      | _ => none

end

/-- Python `json.loads`: the whole string must be one JSON value, with
only whitespace around it; any leftover input is an error
(`json.JSONDecodeError`, modelled as `none`). -/
def parseJson (s : String) : Option Json :=
  match parseValue (s.length + 1) s.data with
  | some (v, rest) => if skipWs rest = [] then some v else none
  | none => none

/-! ## Data model (`devvault/models.py`) -/

/-- The `metadata` mapping of an entry.  In Python it is a free-form dict;
only these keys are ever read (`method`/`url`/`headers` for `api` entries,
`language` for snippets, `filename` for files).  A `none` field models an
absent key, read back through `dict.get` defaults. -/
structure Metadata where
  method : Option String := none
  url : Option String := none
  headers : List (String × String) := []
  language : Option String := none
  filename : Option String := none
  deriving Repr, DecidableEq

/-- An entry document, with the fields `models.create_entry` establishes.
`type` is a plain string: the store can hold any string there (see
the import path), validation happens only in `create_entry`. -/
structure Entry where
  id : String := ""
  type : String
  name : String := ""
  description : String := ""
  content : String := ""
  tags : List String := []
  created_at : String := ""
  updated_at : String := ""
  metadata : Metadata := {}
  deriving Repr, DecidableEq

/-- `models.ENTRY_TYPES`. -/
def ENTRY_TYPES : List String := ["command", "api", "snippet", "file", "playbook", "note"]

/-- `models.create_entry`.  The generated id and the `datetime.utcnow`
reading are nondeterministic inputs, passed explicitly.  An invalid type
raises `ValueError`, modelled as `none`. -/
def create_entry (entry_type name description content : String)
    (tags : Option (List String)) (metadata : Option Metadata)
    (newId now : String) : Option Entry :=
  if entry_type ∈ ENTRY_TYPES then
    some { id := newId, type := entry_type, name := name, description := description,
           content := content, tags := tags.getD [], created_at := now, updated_at := now,
           metadata := metadata.getD {} }
  else none

/-! ## Execution engine (`devvault/executor.py`) -/

/-- An HTTP request as assembled by `execute_api` and handed to
`requests.request` (`json=` carries a dict body, `data=` a str body). -/
structure HttpRequest where
  method : String
  url : String
  headers : List (String × String)
  jsonBody : Option Json
  dataBody : Option String

/-- An HTTP response; only the fields the executor reads. -/
structure Response where
  status_code : Nat
  text : String := ""

/-- `requests.Response.ok` (also `Response.__bool__`): true exactly when
`status_code` is less than 400. -/
def Response.ok (r : Response) : Bool := r.status_code < 400

/-- The external world: subprocess outcomes (`returncode`, stdout, stderr)
and HTTP outcomes (`none` models a `requests.RequestException`). -/
structure Env where
  runCommand : String → Int × String × String
  httpSend : HttpRequest → Option Response

/-- Observable side effects, in program order.  `promptedVar` and
`confirmPrompt` are the two `console.input` call sites; each consumes one
line of user input. -/
inductive Effect where
  | printed (text : String)
  | errorMsg (text : String)
  | successMsg (text : String)
  | promptedVar (name : String)
  | confirmPrompt
  | spawned (cmd : String)
  | http (req : HttpRequest)

/-- Loop body of `utils.prompt_for_variables`: one `console.input` per
element of the variable list (occurrences, not distinct names), building
the values dict by Python dict assignment.  Returns the dict, the
remaining input lines, and the prompt effects. -/
def promptLoop : List String → List String → List (String × String) →
    List (String × String) × List String × List Effect
  | [], inputs, acc => (acc, inputs, [])
  | v :: vs, inputs, acc =>
    let val := inputs.headD ""
    let r := promptLoop vs inputs.tail (dictAssign acc v val)
    (r.1, r.2.1, Effect.promptedVar v :: r.2.2)

/-- `utils.prompt_for_variables`. -/
def prompt_for_variables (vars inputs : List String) :
    List (String × String) × List String × List Effect :=
  promptLoop vars inputs []

/-- `executor.execute_api`.  Empty url: error, no request.  Otherwise the
body is `json.loads(content)` if that succeeds, else the raw `content`
string; the request carries it under `json=` only when it is a dict and
under `data=` only when it is a str.  `none` from the transport is a
caught `RequestException`. -/
def bodyOf (content : String) : Option Json :=
  if content = "" then none
  else some ((parseJson content).getD (Json.str content))

/-- The request `execute_api` assembles for `requests.request`: method
upper-cased, url and headers from the metadata, and the body under
`json=` only when it is a dict and under `data=` only when it is a str
(any other body value, e.g. a parsed number, list, boolean or null,
reaches neither keyword and the request carries no body). -/
def apiRequestOf (entry : Entry) : HttpRequest :=
  { method := strUpper (entry.metadata.method.getD "GET"),
    url := entry.metadata.url.getD "",
    headers := entry.metadata.headers,
    jsonBody := match bodyOf entry.content with
      | some (Json.obj fs) => some (Json.obj fs)
      | _ => none,
    dataBody := match bodyOf entry.content with
      | some (Json.str s) => some s
      | _ => none }

def execute_api (entry : Entry) (env : Env) : Option Response × List Effect :=
  if entry.metadata.url.getD "" = "" then
    (none, [Effect.errorMsg "No URL specified for API request"])
  else
    let req := apiRequestOf entry
    match env.httpSend req with
    | some r => (some r, [Effect.http req])
    | none => (none, [Effect.http req, Effect.errorMsg "Request failed"])

/-- The variable-resolution phase of `executor.execute_entry` (its first
block): extract placeholders from `content`; if any, prompt for every
occurrence, substitute into a local copy of the content and, for `api`
entries whose url also has placeholders, substitute into the url and
write it back onto the entry.  Returns the (possibly url-updated) entry,
the resolved content, the remaining input lines, and the effects.  Note
the resolved content is a local value: it is not written back onto the
entry, so `execute_api` later reads the original unsubstituted content. -/
def resolveEntry (entry : Entry) (inputs : List String) :
    Entry × String × List String × List Effect :=
  let content := entry.content
  let vars := extract_variables content
  if vars.isEmpty then (entry, content, inputs, [])
  else
    let pr := prompt_for_variables vars inputs
    let vals := pr.1
    let inputs' := pr.2.1
    let effs := Effect.printed ("This entry requires " ++ toString vars.length ++ " variable(s):")
      :: pr.2.2
    let content' := substitute_variables content vals
    if entry.type = "api" then
      let url := entry.metadata.url.getD ""
      let urlVars := extract_variables url
      if urlVars.isEmpty then (entry, content', inputs', effs)
      else
        let url' := substitute_variables url vals
        ({ entry with metadata := { entry.metadata with url := some url' } },
         content', inputs', effs)
    else (entry, content', inputs', effs)

/-- The type dispatch of `executor.execute_entry` (everything after
variable resolution).  `entry` is the resolved entry, `content` the
resolved content.  The structured/raw display fallback for API responses
is modelled as printing the response text. -/
def dispatchEntry (entry : Entry) (content : String) (env : Env)
    (inputs : List String) (confirmFlag : Bool) : Bool × List String × List Effect :=
  if entry.type = "command" then
    let effs0 := [Effect.printed ("Command: " ++ content)]
    let answer := inputs.headD ""
    let inputs' := if confirmFlag then inputs.tail else inputs
    if confirmFlag ∧ ¬(strLower answer = "y" ∨ strLower answer = "yes") then
      (false, inputs', effs0 ++ [Effect.confirmPrompt, Effect.printed "Cancelled"])
    else
      let confEffs := if confirmFlag then [Effect.confirmPrompt] else []
      let r := env.runCommand content
      let rc := r.1
      let effs1 := Effect.printed "Output:" :: Effect.spawned content ::
        ((if r.2.1 ≠ "" then [Effect.printed r.2.1] else [])
          ++ (if r.2.2 ≠ "" then [Effect.printed r.2.2] else [])
          ++ (if rc == 0 then [Effect.successMsg ("Command completed (exit code: " ++ toString rc ++ ")")]
              else [Effect.errorMsg ("Command failed (exit code: " ++ toString rc ++ ")")]))
      (rc == 0, inputs', effs0 ++ confEffs ++ effs1)
  else if entry.type = "api" then
    let metadata := entry.metadata
    let method := metadata.method.getD "GET"
    let url := metadata.url.getD ""
    let effs0 := Effect.printed ("API Request: " ++ method ++ " " ++ url) ::
      (if content ≠ "" then [Effect.printed ("Body: " ++ content.take 200 ++ "...")] else [])
    let answer := inputs.headD ""
    let inputs' := if confirmFlag then inputs.tail else inputs
    if confirmFlag ∧ ¬(strLower answer = "y" ∨ strLower answer = "yes") then
      (false, inputs', effs0 ++ [Effect.confirmPrompt, Effect.printed "Cancelled"])
    else
      let confEffs := if confirmFlag then [Effect.confirmPrompt] else []
      let ar := execute_api entry env
      match ar.1 with
      | some r =>
        if r.ok then
          (true, inputs', effs0 ++ confEffs ++ ar.2
            ++ [Effect.printed ("Status: " ++ toString r.status_code), Effect.printed r.text])
        else (false, inputs', effs0 ++ confEffs ++ ar.2)
      | none => (false, inputs', effs0 ++ confEffs ++ ar.2)
  else if entry.type = "snippet" then
    (true, inputs, [Effect.printed "Snippet content:", Effect.printed content,
      Effect.successMsg "Snippet displayed (snippets are not executable)"])
  else if entry.type = "note" then
    (true, inputs, [Effect.printed "Note:", Effect.printed content])
  else if entry.type = "file" then
    (true, inputs, [Effect.printed "File content:", Effect.printed content])
  else if entry.type = "playbook" then
    (true, inputs, [Effect.printed "Playbook execution not yet implemented",
      Effect.printed "Content:", Effect.printed content])
  else
    (false, inputs, [Effect.errorMsg ("Unknown entry type: " ++ entry.type)])

/-- `executor.execute_entry`: variable resolution, then type dispatch.
Returns the boolean outcome, the unconsumed input lines, and the effect
trace. -/
def execute_entry (entry : Entry) (env : Env) (inputs : List String)
    (confirmFlag : Bool := true) : Bool × List String × List Effect :=
  let rs := resolveEntry entry inputs
  let d := dispatchEntry rs.1 rs.2.1 env rs.2.2.1 confirmFlag
  (d.1, d.2.1, rs.2.2.2 ++ d.2.2)

/-- Loop of `executor.execute_playbook`: `i` is the 1-indexed step number
of the head entry, `total` the full playbook length (for the step
banner). -/
def playbookGo (total : Nat) (env : Env) : List Entry → List String → Nat →
    Bool × List String × List Effect
  | [], inputs, _ => (true, inputs, [Effect.successMsg "Playbook completed successfully"])
  | e :: rest, inputs, i =>
    let stepMsg := Effect.printed ("Step " ++ toString i ++ "/" ++ toString total ++ ": " ++ e.name)
    let r := execute_entry e env inputs false
    if r.1 then
      let r2 := playbookGo total env rest r.2.1 (i + 1)
      (r2.1, r2.2.1, stepMsg :: r.2.2 ++ r2.2.2)
    else
      (false, r.2.1, stepMsg :: r.2.2 ++ [Effect.errorMsg ("Playbook failed at step " ++ toString i)])

/-- `executor.execute_playbook`. -/
def execute_playbook (entries : List Entry) (env : Env) (inputs : List String) :
    Bool × List String × List Effect :=
  playbookGo entries.length env entries inputs 1

/-- Derived notion for stating the playbook claims: the number of steps
that succeed (with `confirm=False`, threading the input lines) before the
first failing one; `none` when every step succeeds.  The first failing
step's 1-indexed number is this value plus one. -/
def firstFailingStep (env : Env) : List Entry → List String → Option Nat
  | [], _ => none
  | e :: rest, inputs =>
    let r := execute_entry e env inputs false
    if r.1 then (firstFailingStep env rest r.2.1).map (· + 1) else some 0

/-- The variable names prompted for, in order, read off an effect trace. -/
def promptedNames (t : List Effect) : List String :=
  t.filterMap fun e => match e with | Effect.promptedVar n => some n | _ => none

/-- Whether a trace contains an external side effect: a spawned subprocess
or an issued HTTP request. -/
def hasExternalEffect (t : List Effect) : Bool :=
  t.any fun e => match e with | Effect.spawned _ => true | Effect.http _ => true | _ => false

/-- The HTTP requests issued, read off an effect trace. -/
def sentRequests (t : List Effect) : List HttpRequest :=
  t.filterMap fun e => match e with | Effect.http r => some r | _ => none

/-- Whether a trace records `print_error` with the given message. -/
def hasErrorMsg (t : List Effect) (msg : String) : Bool :=
  t.any fun e => match e with | Effect.errorMsg m => m == msg | _ => false

/-! ## Update paths (`devvault/models.py`, `devvault/cli.py`, `devvault/db.py`) -/

/-- The keyword arguments an update request may carry
(`models.update_entry(entry, **updates)`); `none` models an absent or
`None`-valued keyword. -/
structure UpdateRequest where
  id : Option String := none
  type : Option String := none
  created_at : Option String := none
  name : Option String := none
  description : Option String := none
  content : Option String := none
  tags : Option (List String) := none
  metadata : Option Metadata := none

/-- `models.update_entry`: copy only the values of
`allowed_fields = (name, description, content, tags, metadata)` that are
present and not `None`, then refresh `updated_at` from the clock.  The
`id`, `type` and `created_at` components of the request are never read. -/
def models_update_entry (e : Entry) (u : UpdateRequest) (now : String) : Entry :=
  { e with
    name := u.name.getD e.name,
    description := u.description.getD e.description,
    content := u.content.getD e.content,
    tags := u.tags.getD e.tags,
    metadata := u.metadata.getD e.metadata,
    updated_at := now }

/-- The update step of `cli.edit`: the user's editor produced a full entry
document `edited` (the temp file held a dump of the whole entry); the code
sets its `updated_at` to a fresh timestamp and hands the whole document to
`db.update_entry`, whose TinyDB `db.update` merges every key of the given
mapping into the stored record.  Since `edited` carries every entry key,
the merge replaces every field of the stored record. -/
def cli_edit_apply (_stored : Entry) (edited : Entry) (now : String) : Entry :=
  { edited with updated_at := now }

/-! ## Export / import (`devvault/cli.py`)

`export` is `json.dump(entry)` and `import` re-reads the dumped document,
so the export/import wire format is the entry's JSON object itself.  A
document is modelled as a JSON object: an association list from field
names to JSON values. -/

/-- A persisted/exported entry document (a JSON object). -/
abbrev Doc : Type := List (String × Json)

/-- Read a field of a document (`doc.get(k)` / `doc[k]`). -/
def getField (d : Doc) (k : String) : Option Json :=
  match d with
  | [] => none
  | p :: rest => if p.1 = k then some p.2 else getField rest k

/-- Python dict assignment `doc[k] = v` on a document. -/
def setField (d : Doc) (k : String) (v : Json) : Doc :=
  match d with
  | [] => [(k, v)]
  | p :: rest => if p.1 = k then (k, v) :: rest else p :: setField rest k v

/-- `cli.export_entry` writes `json.dump(entry)`: the exported document is
the stored document itself. -/
def export_entry (e : Doc) : Doc := e

/-- The required import fields checked by `cli.import_entry`. -/
def importRequiredFields : List String := ["type", "name", "description", "content"]

/-- `cli.import_entry` on an already-parsed JSON document: if any of
`type`, `name`, `description`, `content` is missing, report an error and
insert nothing (`none`); otherwise overwrite `id` with a freshly generated
one and both timestamps with the current time, and insert the result.  No
other field — in particular `type` — is validated. -/
def import_entry (doc : Doc) (newId now : String) : Option Doc :=
  if importRequiredFields.all fun f => (getField doc f).isSome then
    some (setField (setField (setField doc "id" (Json.str newId))
      "created_at" (Json.str now)) "updated_at" (Json.str now))
  else none

/-- A stored entry used to exercise the edit path. -/
def sampleStored : Entry :=
  { id := "abc12345", type := "command", name := "orig", description := "d",
    content := "echo hi", created_at := "2024-01-01T00:00:00", updated_at := "2024-01-01T00:00:00" }

/-- The document read back from the editor in the edit scenario: the user
changed the `type`, `id` and `created_at` fields of the dumped entry. -/
def sampleEdited : Entry :=
  { sampleStored with type := "note", id := "zzz99999", created_at := "1999-01-01T00:00:00" }

/-! ## Facts about the variable resolver -/

theorem takeWord_word (n : List Char) (c : Char) (rest : List Char)
    (hw : n.all isWordChar = true) (hc : isWordChar c = false) :
    takeWord (n ++ c :: rest) = (n, c :: rest) := by
  induction n with
  | nil => simp [takeWord, hc]
  | cons a as ih =>
    simp only [List.all_cons, Bool.and_eq_true] at hw
    simp [takeWord, hw.1, ih hw.2]

theorem matchPlaceholder_run (n rest : List Char) (hne : n ≠ []) (hw : n.all isWordChar = true) :
    matchPlaceholder ('{' :: '{' :: (n ++ '}' :: '}' :: rest)) = some (n, rest) := by
  have ht := takeWord_word n '}' ('}' :: rest) hw (by decide)
  simp [matchPlaceholder, ht, hne]

theorem matchPlaceholder_no_open (c : Char) (cs : List Char) (hc : c ≠ '{') :
    matchPlaceholder (c :: cs) = none := by
  have h2 : ¬((c :: cs).take 2 = ['{', '{']) := by cases cs <;> simp [hc]
  unfold matchPlaceholder
  rw [if_neg h2]

theorem matchPlaceholder_single_open (a : Char) (cs : List Char) (ha : a ≠ '{') :
    matchPlaceholder ('{' :: a :: cs) = none := by
  have h2 : ¬(('{' :: a :: cs).take 2 = ['{', '{']) := by simp [ha]
  unfold matchPlaceholder
  rw [if_neg h2]

theorem extractAux_cons (c : Char) (cs : List Char) :
    extractAux (c :: cs) = match matchPlaceholder (c :: cs) with
      | some p => p.1 :: extractAux cs
      | none => extractAux cs := rfl

theorem extractAux_skip (c : Char) (cs : List Char) (hc : c ≠ '{') :
    extractAux (c :: cs) = extractAux cs := by
  rw [extractAux_cons, matchPlaceholder_no_open c cs hc]

theorem extractAux_skip_single_open (a : Char) (cs : List Char) (ha : a ≠ '{') :
    extractAux ('{' :: a :: cs) = extractAux (a :: cs) := by
  rw [extractAux_cons, matchPlaceholder_single_open a cs ha]

theorem word_not_open {a : Char} (hw : isWordChar a = true) : a ≠ '{' := by
  intro h; rw [h] at hw; exact absurd hw (by decide)

theorem extractAux_append_words (n tail : List Char) (hw : n.all isWordChar = true) :
    extractAux (n ++ tail) = extractAux tail := by
  induction n
  case nil => rfl
  case cons a as ih =>
    simp only [List.all_cons, Bool.and_eq_true] at hw
    rw [List.cons_append, extractAux_skip a _ (word_not_open hw.1), ih hw.2]

/-- The resume-after-match equation of `re.findall`: a well-formed
placeholder at the head contributes its name, and scanning continues after
its closing braces. -/
theorem extractAux_match (n rest : List Char) (hne : n ≠ []) (hw : n.all isWordChar = true) :
    extractAux ('{' :: '{' :: (n ++ '}' :: '}' :: rest)) = n :: extractAux rest := by
  have h1 := matchPlaceholder_run n rest hne hw
  have hstep : extractAux ('{' :: '{' :: (n ++ '}' :: '}' :: rest))
      = n :: extractAux ('{' :: (n ++ '}' :: '}' :: rest)) := by
    rw [extractAux_cons, h1]
  rw [hstep]
  refine congrArg (n :: ·) ?_
  cases n with
  | nil => exact absurd rfl hne
  | cons a as =>
    simp only [List.all_cons, Bool.and_eq_true] at hw
    rw [List.cons_append, extractAux_skip_single_open a _ (word_not_open hw.1),
      ← List.cons_append, extractAux_append_words (a :: as) _ (by simp [hw.1, hw.2]),
      extractAux_skip '}' _ (by decide), extractAux_skip '}' _ (by decide)]

/-- C7: `extract_variables` returns exactly the names captured by the
pattern `\x7b\x7b` + word characters + `\x7d\x7d`, left to right,
duplicates preserved; malformed forms never match; the empty string
yields the empty list.  The last two conjuncts characterise the scanner
completely: a well-formed placeholder at the current position contributes
its name and scanning resumes after it, and any position where the
pattern does not match is skipped. -/
theorem extract_variables_spec :
    extract_variables "" = []
    ∧ extract_variables "\x7b\x7b VAR \x7d\x7d" = []
    ∧ extract_variables "\x7bVAR\x7d" = []
    ∧ extract_variables "\x7b\x7bVAR\x7d" = []
    ∧ extract_variables "\x7b\x7bVAR\x7d\x7d and \x7b\x7bVAR\x7d\x7d" = ["VAR", "VAR"]
    ∧ (∀ n rest : List Char, n ≠ [] → n.all isWordChar = true →
        extractAux ('{' :: '{' :: (n ++ '}' :: '}' :: rest)) = n :: extractAux rest)
    ∧ (∀ (c : Char) (cs : List Char), matchPlaceholder (c :: cs) = none →
        extractAux (c :: cs) = extractAux cs) :=
  ⟨rfl, rfl, rfl, rfl, rfl,
   fun n rest hne hw => extractAux_match n rest hne hw,
   fun c cs h => by simp [extractAux, h]⟩

/-- Witness for `extract_variables_spec`: the general conjuncts applied at
a concrete placeholder. -/
theorem extract_variables_spec_witness :
    extractAux ['{', '{', 'V', '}', '}'] = ['V'] :: extractAux [] :=
  extract_variables_spec.2.2.2.2.2.1 ['V'] [] (by decide) (by decide)

/-! ## Facts about substitution -/

theorem isPrefixOf_self (l : List Char) : l.isPrefixOf l = true := by
  induction l
  case nil => rfl
  case cons hd tl ih => simp [List.isPrefixOf, ih]

theorem replaceAllFuel_nil (f : Nat) (pat rep : List Char) :
    replaceAllFuel f [] pat rep = [] := by
  cases f <;> rfl

theorem replaceAllFuel_id (f : Nat) (s pat rep : List Char)
    (h : containsSub s pat = false) : replaceAllFuel f s pat rep = s := by
  induction f generalizing s with
  | zero => rfl
  | succ f ih =>
    cases s with
    | nil => rfl
    | cons c cs =>
      simp only [containsSub, Bool.or_eq_false_iff] at h
      have hneg : ¬(pat.isPrefixOf (c :: cs) = true ∧ pat ≠ []) := by
        intro hc
        rw [h.1] at hc
        exact Bool.noConfusion hc.1
      rw [replaceAllFuel, if_neg hneg, ih cs h.2]

theorem replaceAll_id (s pat rep : List Char) (h : containsSub s pat = false) :
    replaceAll s pat rep = s :=
  replaceAllFuel_id s.length s pat rep h

theorem replaceAll_self (s rep : List Char) (hne : s ≠ []) :
    replaceAll s s rep = rep := by
  cases s with
  | nil => exact absurd rfl hne
  | cons c cs =>
    have hcond : (c :: cs).isPrefixOf (c :: cs) = true ∧ (c :: cs) ≠ [] :=
      ⟨isPrefixOf_self _, by simp⟩
    show replaceAllFuel (c :: cs).length (c :: cs) (c :: cs) rep = rep
    rw [List.length_cons, replaceAllFuel, if_pos hcond, List.drop_length,
      replaceAllFuel_nil, List.append_nil]

theorem string_mk_data (s : String) : String.mk s.data = s := rfl

theorem mkPattern_ne_nil (v : String) : mkPattern v ≠ [] := by
  simp [mkPattern]

theorem substitute_variables_untouched (m : List (String × String)) (s : String)
    (h : ∀ p ∈ m, containsSub s.data (mkPattern p.1) = false) :
    substitute_variables s m = s := by
  induction m with
  | nil => rfl
  | cons p m ih =>
    show substitute_variables
      (String.mk (replaceAll s.data (mkPattern p.1) p.2.data)) m = s
    rw [replaceAll_id _ _ _ (h p (by simp)), string_mk_data]
    exact ih fun q hq => h q (by simp [hq])

/-- C3 (amended): `substitute_variables` folds the bindings of the mapping
in insertion order.  An empty mapping is the identity; placeholders whose
pattern does not occur are left untouched; a binding whose value is a
placeholder of a key appearing later in the mapping IS substituted by that
later binding within the same call; a value containing only the binding's
own placeholder (or placeholders of earlier keys) is not re-substituted. -/
theorem substitute_variables_spec :
    (∀ s : String, substitute_variables s [] = s)
    ∧ (∀ (s : String) (m : List (String × String)),
        (∀ p ∈ m, containsSub s.data (mkPattern p.1) = false) →
        substitute_variables s m = s)
    ∧ (∀ v1 v2 val2 : String, v1 ≠ v2 →
        substitute_variables (String.mk (mkPattern v1))
          [(v1, String.mk (mkPattern v2)), (v2, val2)] = val2)
    ∧ (∀ v : String, substitute_variables (String.mk (mkPattern v))
        [(v, String.mk (mkPattern v))] = String.mk (mkPattern v)) := by
  refine ⟨fun s => rfl, fun s m h => substitute_variables_untouched m s h, ?_, ?_⟩
  · intro v1 v2 val2 _
    show substitute_variables
      (String.mk (replaceAll (String.mk (mkPattern v1)).data (mkPattern v1)
        (String.mk (mkPattern v2)).data)) [(v2, val2)] = val2
    rw [show (String.mk (mkPattern v1)).data = mkPattern v1 from rfl,
      show (String.mk (mkPattern v2)).data = mkPattern v2 from rfl,
      replaceAll_self _ _ (mkPattern_ne_nil v1)]
    show String.mk (replaceAll (String.mk (mkPattern v2)).data (mkPattern v2) val2.data) = val2
    rw [show (String.mk (mkPattern v2)).data = mkPattern v2 from rfl,
      replaceAll_self _ _ (mkPattern_ne_nil v2), string_mk_data]
  · intro v
    show String.mk (replaceAll (String.mk (mkPattern v)).data (mkPattern v)
      (String.mk (mkPattern v)).data) = String.mk (mkPattern v)
    rw [show (String.mk (mkPattern v)).data = mkPattern v from rfl,
      replaceAll_self _ _ (mkPattern_ne_nil v)]

/-- Witness for `substitute_variables_spec`: the sequential-substitution
conjunct applied at concrete bindings. -/
theorem substitute_variables_spec_witness :
    substitute_variables (String.mk (mkPattern "A"))
      [("A", String.mk (mkPattern "B")), ("B", "x")] = "x" :=
  substitute_variables_spec.2.2.1 "A" "B" "x" (by decide)

/-- C3 counterexample: the value supplied for `A` contains the placeholder
of key `B`, and a single call substitutes it too — the claim predicts the
result `\x7b\x7bB\x7d\x7d`, but the code produces `x`. -/
theorem substitute_variables_no_recursion_cx :
    substitute_variables "\x7b\x7bA\x7d\x7d" [("A", "\x7b\x7bB\x7d\x7d"), ("B", "x")] = "x"
    ∧ ("x" : String) ≠ "\x7b\x7bB\x7d\x7d" := by
  exact ⟨by decide, by decide⟩

/-! ## Facts about the executor traces -/

@[simp] theorem promptedNames_nil : promptedNames [] = [] := rfl

@[simp] theorem promptedNames_printed (t : String) (l : List Effect) :
    promptedNames (Effect.printed t :: l) = promptedNames l := rfl

@[simp] theorem promptedNames_errorMsg (t : String) (l : List Effect) :
    promptedNames (Effect.errorMsg t :: l) = promptedNames l := rfl

@[simp] theorem promptedNames_successMsg (t : String) (l : List Effect) :
    promptedNames (Effect.successMsg t :: l) = promptedNames l := rfl

@[simp] theorem promptedNames_promptedVar (n : String) (l : List Effect) :
    promptedNames (Effect.promptedVar n :: l) = n :: promptedNames l := rfl

@[simp] theorem promptedNames_confirmPrompt (l : List Effect) :
    promptedNames (Effect.confirmPrompt :: l) = promptedNames l := rfl

@[simp] theorem promptedNames_spawned (c : String) (l : List Effect) :
    promptedNames (Effect.spawned c :: l) = promptedNames l := rfl

@[simp] theorem promptedNames_http (r : HttpRequest) (l : List Effect) :
    promptedNames (Effect.http r :: l) = promptedNames l := rfl

@[simp] theorem promptedNames_append (a b : List Effect) :
    promptedNames (a ++ b) = promptedNames a ++ promptedNames b :=
  List.filterMap_append a b _

@[simp] theorem promptedNames_ite (c : Prop) [Decidable c] (a b : List Effect) :
    promptedNames (if c then a else b) = if c then promptedNames a else promptedNames b :=
  apply_ite promptedNames c a b

@[simp] theorem promptedNames_map_promptedVar (l : List String) :
    promptedNames (l.map Effect.promptedVar) = l := by
  induction l
  case nil => rfl
  case cons hd tl ih => simp [ih]

@[simp] theorem hasExternalEffect_nil : hasExternalEffect [] = false := rfl

@[simp] theorem hasExternalEffect_printed (t : String) (l : List Effect) :
    hasExternalEffect (Effect.printed t :: l) = hasExternalEffect l := rfl

@[simp] theorem hasExternalEffect_errorMsg (t : String) (l : List Effect) :
    hasExternalEffect (Effect.errorMsg t :: l) = hasExternalEffect l := rfl

@[simp] theorem hasExternalEffect_successMsg (t : String) (l : List Effect) :
    hasExternalEffect (Effect.successMsg t :: l) = hasExternalEffect l := rfl

@[simp] theorem hasExternalEffect_promptedVar (n : String) (l : List Effect) :
    hasExternalEffect (Effect.promptedVar n :: l) = hasExternalEffect l := rfl

@[simp] theorem hasExternalEffect_confirmPrompt (l : List Effect) :
    hasExternalEffect (Effect.confirmPrompt :: l) = hasExternalEffect l := rfl

@[simp] theorem hasExternalEffect_spawned (c : String) (l : List Effect) :
    hasExternalEffect (Effect.spawned c :: l) = true := rfl

@[simp] theorem hasExternalEffect_http (r : HttpRequest) (l : List Effect) :
    hasExternalEffect (Effect.http r :: l) = true := rfl

@[simp] theorem hasExternalEffect_append (a b : List Effect) :
    hasExternalEffect (a ++ b) = (hasExternalEffect a || hasExternalEffect b) :=
  List.any_append

@[simp] theorem hasExternalEffect_ite (c : Prop) [Decidable c] (a b : List Effect) :
    hasExternalEffect (if c then a else b)
      = if c then hasExternalEffect a else hasExternalEffect b :=
  apply_ite hasExternalEffect c a b

@[simp] theorem hasExternalEffect_map_promptedVar (l : List String) :
    hasExternalEffect (l.map Effect.promptedVar) = false := by
  induction l
  case nil => rfl
  case cons hd tl ih => simp [ih]

@[simp] theorem sentRequests_nil : sentRequests [] = [] := rfl

@[simp] theorem sentRequests_printed (t : String) (l : List Effect) :
    sentRequests (Effect.printed t :: l) = sentRequests l := rfl

@[simp] theorem sentRequests_errorMsg (t : String) (l : List Effect) :
    sentRequests (Effect.errorMsg t :: l) = sentRequests l := rfl

@[simp] theorem sentRequests_http (r : HttpRequest) (l : List Effect) :
    sentRequests (Effect.http r :: l) = r :: sentRequests l := rfl

theorem promptLoop_effects (vs : List String) (inputs : List String)
    (acc : List (String × String)) :
    (promptLoop vs inputs acc).2.2 = vs.map Effect.promptedVar := by
  induction vs generalizing inputs acc
  case nil => rfl
  case cons v vs ih => simp [promptLoop, ih]

theorem resolveEntry_type (e : Entry) (inputs : List String) :
    (resolveEntry e inputs).1.type = e.type := by
  simp only [resolveEntry]
  split_ifs <;> rfl

theorem resolveEntry_effects (e : Entry) (inputs : List String) :
    (resolveEntry e inputs).2.2.2 =
      if (extract_variables e.content).isEmpty then []
      else Effect.printed ("This entry requires "
          ++ toString (extract_variables e.content).length ++ " variable(s):")
        :: (extract_variables e.content).map Effect.promptedVar := by
  simp only [resolveEntry, prompt_for_variables]
  split_ifs <;> simp_all [promptLoop_effects]

theorem resolveEntry_prompts (e : Entry) (inputs : List String) :
    promptedNames (resolveEntry e inputs).2.2.2 = extract_variables e.content := by
  rw [resolveEntry_effects]
  split
  next h => simp [List.isEmpty_iff.mp h]
  next h => simp

theorem resolveEntry_no_external (e : Entry) (inputs : List String) :
    hasExternalEffect (resolveEntry e inputs).2.2.2 = false := by
  rw [resolveEntry_effects]
  split <;> simp

theorem execute_api_no_prompts (e : Entry) (env : Env) :
    promptedNames (execute_api e env).2 = [] := by
  simp only [execute_api]
  split
  · rfl
  · split <;> rfl

theorem dispatchEntry_no_prompts (e : Entry) (content : String) (env : Env)
    (inputs : List String) (b : Bool) :
    promptedNames (dispatchEntry e content env inputs b).2.2 = [] := by
  simp only [dispatchEntry]
  repeat' split
  all_goals try rfl
  all_goals simp [execute_api_no_prompts]

/-- C2 (amended): `execute_entry` prompts exactly once per *occurrence* of
a placeholder name in `content`, in order (so duplicated names are
prompted repeatedly, the last answer winning), and never for a name that
occurs only in an `api` entry's url; when `content` has no placeholders
there is no prompting at all. -/
theorem execute_entry_prompt_set (e : Entry) (env : Env) (inputs : List String) (b : Bool) :
    promptedNames (execute_entry e env inputs b).2.2 = extract_variables e.content := by
  simp only [execute_entry, promptedNames_append,
    dispatchEntry_no_prompts, resolveEntry_prompts, List.append_nil]

/-- C2 counterexample: an `api` entry whose content is
`\x7b\x7bA\x7d\x7d \x7b\x7bA\x7d\x7d` and whose url is
`https://h/\x7b\x7bB\x7d\x7d`.  The claim's prompt set is one request for
each of `A` and `B`; the code prompts for `A` twice and never for `B`. -/
theorem execute_entry_prompt_union_cx :
    promptedNames (execute_entry
      { type := "api", content := "\x7b\x7bA\x7d\x7d \x7b\x7bA\x7d\x7d",
        metadata := { url := some "https://h/\x7b\x7bB\x7d\x7d" } }
      { runCommand := fun _ => (0, "", ""), httpSend := fun _ => none }
      ["v1", "v2"] false).2.2 = ["A", "A"]
    ∧ "B" ∉ (["A", "A"] : List String)
    ∧ (["A", "A"] : List String) ≠ ["A", "B"] := by
  refine ⟨by decide, by decide, by decide⟩

theorem dispatchEntry_decline (e : Entry) (content : String) (env : Env)
    (inputs : List String)
    (hty : e.type = "command" ∨ e.type = "api")
    (hno : strLower (inputs.headD "") ≠ "y")
    (hno2 : strLower (inputs.headD "") ≠ "yes") :
    (dispatchEntry e content env inputs true).1 = false
    ∧ hasExternalEffect (dispatchEntry e content env inputs true).2.2 = false := by
  have hnot : ¬(strLower (inputs.headD "") = "y" ∨ strLower (inputs.headD "") = "yes") :=
    fun hc => hc.elim hno hno2
  rcases hty with h | h
  · simp only [dispatchEntry, h]
    rw [if_pos trivial, if_pos ⟨trivial, hnot⟩]
    simp
  · simp only [dispatchEntry, h]
    rw [if_neg (by decide : ¬("api" : String) = "command"), if_pos trivial,
      if_pos ⟨trivial, hnot⟩]
    simp

/-- C4: for a `command` or `api` entry run with `confirm=true`, any
confirmation answer other than case-insensitive `y`/`yes` makes
`execute_entry` return `false` with no subprocess spawned and no HTTP
request issued.  The confirmation answer is the first input line left
after variable prompting. -/
theorem execute_entry_decline_no_side_effects (e : Entry) (env : Env)
    (inputs : List String)
    (hty : e.type = "command" ∨ e.type = "api")
    (hno : strLower ((resolveEntry e inputs).2.2.1.headD "") ≠ "y")
    (hno2 : strLower ((resolveEntry e inputs).2.2.1.headD "") ≠ "yes") :
    (execute_entry e env inputs true).1 = false
    ∧ hasExternalEffect (execute_entry e env inputs true).2.2 = false := by
  have hty' : (resolveEntry e inputs).1.type = "command"
      ∨ (resolveEntry e inputs).1.type = "api" := by
    rw [resolveEntry_type]; exact hty
  have hd := dispatchEntry_decline (resolveEntry e inputs).1 (resolveEntry e inputs).2.1
    env (resolveEntry e inputs).2.2.1 hty' hno hno2
  simp only [execute_entry]
  exact ⟨hd.1, by simp [hasExternalEffect_append, resolveEntry_no_external, hd.2]⟩

/-- Witness for `execute_entry_decline_no_side_effects`: declining a
concrete command entry with answer `n`. -/
theorem execute_entry_decline_no_side_effects_witness :
    (execute_entry { type := "command", content := "rm -rf /tmp/x" }
      { runCommand := fun _ => (0, "", ""), httpSend := fun _ => none }
      ["n"] true).1 = false
    ∧ hasExternalEffect (execute_entry { type := "command", content := "rm -rf /tmp/x" }
      { runCommand := fun _ => (0, "", ""), httpSend := fun _ => none }
      ["n"] true).2.2 = false :=
  execute_entry_decline_no_side_effects _ _ _ (Or.inl rfl) (by decide) (by decide)

theorem dispatchEntry_api_response (e : Entry) (content : String) (env : Env)
    (inputs : List String) (b : Bool) (r : Response)
    (hty : e.type = "api")
    (hresp : (execute_api e env).1 = some r)
    (happr : b = true → (strLower (inputs.headD "") = "y"
        ∨ strLower (inputs.headD "") = "yes")) :
    (dispatchEntry e content env inputs b).1 = r.ok := by
  simp only [dispatchEntry, hty]
  rw [if_neg (by decide : ¬("api" : String) = "command"), if_pos trivial,
    if_neg (fun hc => absurd (happr hc.1) hc.2), hresp]
  cases hr : r.ok <;> simp [hr]

/-- C1 (amended): for an `api` entry whose HTTP request yields a response
(whether approved interactively or run with `confirm=false`),
`execute_entry` returns `Response.ok`, i.e. true exactly when the status
code is below 400 — so 3xx statuses such as 304 also count as success,
not only the 2xx range. -/
theorem execute_entry_api_ok (e : Entry) (env : Env) (inputs : List String) (r : Response)
    (hty : e.type = "api")
    (hresp : (execute_api (resolveEntry e inputs).1 env).1 = some r) :
    (execute_entry e env inputs false).1 = r.ok
    ∧ (r.ok = true ↔ r.status_code < 400)
    ∧ (strLower ((resolveEntry e inputs).2.2.1.headD "") = "y"
        ∨ strLower ((resolveEntry e inputs).2.2.1.headD "") = "yes" →
        (execute_entry e env inputs true).1 = r.ok) := by
  have hty' : (resolveEntry e inputs).1.type = "api" := by rw [resolveEntry_type, hty]
  refine ⟨?_, ?_, ?_⟩
  · have hda := dispatchEntry_api_response (resolveEntry e inputs).1
      (resolveEntry e inputs).2.1 env (resolveEntry e inputs).2.2.1 false r hty' hresp
      (fun hc => Bool.noConfusion hc)
    simpa [execute_entry] using hda
  · simp [Response.ok]
  · intro happ
    have h := dispatchEntry_api_response (resolveEntry e inputs).1
      (resolveEntry e inputs).2.1 env (resolveEntry e inputs).2.2.1 true r hty' hresp
      (fun _ => happ)
    simpa [execute_entry] using h

/-- Witness for `execute_entry_api_ok` at a concrete 200 response. -/
theorem execute_entry_api_ok_witness :
    (execute_entry { type := "api", metadata := { url := some "https://x/" } }
      { runCommand := fun _ => (0, "", ""), httpSend := fun _ => some { status_code := 200 } }
      [] false).1 = Response.ok { status_code := 200 } :=
  (execute_entry_api_ok
    { type := "api", metadata := { url := some "https://x/" } }
    { runCommand := fun _ => (0, "", ""), httpSend := fun _ => some { status_code := 200 } }
    [] { status_code := 200 } rfl (by rfl)).1

/-- C1 counterexample: a 304 response is outside the 2xx range, yet
`execute_entry` reports success for it (`requests.Response.ok` is
`status_code < 400`). -/
theorem execute_entry_api_2xx_cx :
    (execute_entry { type := "api", metadata := { url := some "https://x/" } }
      { runCommand := fun _ => (0, "", ""), httpSend := fun _ => some { status_code := 304 } }
      [] false).1 = true
    ∧ ¬(200 ≤ 304 ∧ 304 < 300) := by
  exact ⟨by decide, by decide⟩

/-- C6 (amended): `execute_api` with an empty url fails before any network
attempt; otherwise it sends exactly one request whose body is: the parsed
object under `json=` when the content parses to a JSON object; the raw
content under `data=` when parsing fails; the *decoded* string under
`data=` when the content parses to a JSON string; and no body at all when
the content is empty or parses to any other JSON value (number, boolean,
null, array). -/
theorem execute_api_body_spec (e : Entry) (env : Env) :
    (e.metadata.url.getD "" = "" →
      execute_api e env = (none, [Effect.errorMsg "No URL specified for API request"]))
    ∧ (e.metadata.url.getD "" ≠ "" →
      sentRequests (execute_api e env).2 = [apiRequestOf e]
      ∧ (apiRequestOf e).method = strUpper (e.metadata.method.getD "GET")
      ∧ (apiRequestOf e).url = e.metadata.url.getD ""
      ∧ (apiRequestOf e).headers = e.metadata.headers
      ∧ (e.content = "" →
          (apiRequestOf e).jsonBody = none ∧ (apiRequestOf e).dataBody = none)
      ∧ (∀ fs, e.content ≠ "" → parseJson e.content = some (Json.obj fs) →
          (apiRequestOf e).jsonBody = some (Json.obj fs) ∧ (apiRequestOf e).dataBody = none)
      ∧ (e.content ≠ "" → parseJson e.content = none →
          (apiRequestOf e).jsonBody = none ∧ (apiRequestOf e).dataBody = some e.content)
      ∧ (∀ sv, e.content ≠ "" → parseJson e.content = some (Json.str sv) →
          (apiRequestOf e).jsonBody = none ∧ (apiRequestOf e).dataBody = some sv)
      ∧ (∀ j, e.content ≠ "" → parseJson e.content = some j →
          (∀ fs, j ≠ Json.obj fs) → (∀ sv, j ≠ Json.str sv) →
          (apiRequestOf e).jsonBody = none ∧ (apiRequestOf e).dataBody = none)) := by
  constructor
  · intro h
    simp only [execute_api]
    rw [if_pos h]
  · intro h
    have hsent : sentRequests (execute_api e env).2 = [apiRequestOf e] := by
      simp only [execute_api]
      rw [if_neg h]
      split <;> rfl
    refine ⟨hsent, rfl, rfl, rfl, ?hempty, ?hobj, ?hfail, ?hstr, ?hother⟩
    · intro hc
      simp [apiRequestOf, bodyOf, hc]
    · intro fs hc hp
      simp [apiRequestOf, bodyOf, hc, hp]
    · intro hc hp
      simp [apiRequestOf, bodyOf, hc, hp]
    · intro sv hc hp
      simp [apiRequestOf, bodyOf, hc, hp]
    · intro j hc hp hobj hstr
      have hb : bodyOf e.content = some j := by simp [bodyOf, hc, hp]
      cases j with
      | obj fs => exact absurd rfl (hobj fs)
      | str sv => exact absurd rfl (hstr sv)
      | null => simp [apiRequestOf, hb]
      | bool b => simp [apiRequestOf, hb]
      | num n => simp [apiRequestOf, hb]
      | arr xs => simp [apiRequestOf, hb]

/-- Witness for `execute_api_body_spec`: the empty-url precondition
failure at a concrete entry. -/
theorem execute_api_body_spec_witness :
    execute_api { type := "api", content := "42" }
      { runCommand := fun _ => (0, "", ""), httpSend := fun _ => none }
      = (none, [Effect.errorMsg "No URL specified for API request"]) :=
  (execute_api_body_spec _ _).1 rfl

/-- C6 counterexample: content `42` parses to a JSON scalar, and the
request is sent with *no* body (neither `json=` nor `data=`), not with
the raw text `42` as the claim states. -/
theorem execute_api_scalar_body_cx :
    ((sentRequests (execute_api
        { type := "api", content := "42", metadata := { url := some "https://x/" } }
        { runCommand := fun _ => (0, "", ""), httpSend := fun _ => none }).2).map
      fun r => (r.jsonBody.isNone, r.dataBody)) = [(true, none)]
    ∧ (none : Option String) ≠ some "42" := by
  exact ⟨by decide, by decide⟩

/-! ## Facts about the playbook sequencer -/

theorem playbookGo_bool (env : Env) (es : List Entry) :
    ∀ (inputs : List String) (t t' i i' : Nat),
    (playbookGo t env es inputs i).1 = (playbookGo t' env es inputs i').1
    ∧ (playbookGo t env es inputs i).2.1 = (playbookGo t' env es inputs i').2.1 := by
  induction es with
  | nil => intro inputs t t' i i'; exact ⟨rfl, rfl⟩
  | cons e rest ih =>
    intro inputs t t' i i'
    simp only [playbookGo]
    by_cases hr : (execute_entry e env inputs false).1 = true
    · rw [if_pos hr, if_pos hr]
      exact ⟨(ih _ _ _ _ _).1, (ih _ _ _ _ _).2⟩
    · rw [if_neg hr, if_neg hr]
      exact ⟨rfl, rfl⟩

theorem playbookGo_true_iff (env : Env) (es : List Entry) :
    ∀ (inputs : List String) (t i : Nat),
    ((playbookGo t env es inputs i).1 = true ↔ firstFailingStep env es inputs = none) := by
  induction es with
  | nil => intro inputs t i; simp [playbookGo, firstFailingStep]
  | cons e rest ih =>
    intro inputs t i
    simp only [playbookGo, firstFailingStep]
    by_cases hr : (execute_entry e env inputs false).1 = true
    · rw [if_pos hr, if_pos hr]
      simp [ih]
    · rw [if_neg hr, if_neg hr]
      simp

theorem playbookGo_fail (env : Env) (es : List Entry) :
    ∀ (inputs : List String) (t i j : Nat), firstFailingStep env es inputs = some j →
    (playbookGo t env es inputs i).1 = false
    ∧ ∃ pre, (playbookGo t env es inputs i).2.2
        = pre ++ [Effect.errorMsg ("Playbook failed at step " ++ toString (i + j))] := by
  induction es with
  | nil => intro inputs t i j h; simp [firstFailingStep] at h
  | cons e rest ih =>
    intro inputs t i j h
    simp only [firstFailingStep] at h
    simp only [playbookGo]
    by_cases hr : (execute_entry e env inputs false).1 = true
    · rw [if_pos hr] at h
      rw [if_pos hr]
      obtain ⟨j', hj', hjj⟩ : ∃ j',
          firstFailingStep env rest (execute_entry e env inputs false).2.1 = some j'
          ∧ j = j' + 1 := by
        cases hff : firstFailingStep env rest (execute_entry e env inputs false).2.1 with
        | none => rw [hff] at h; simp at h
        | some k => rw [hff] at h; simp at h; exact ⟨k, rfl, h.symm⟩
      subst hjj
      have ihh := ih _ t (i + 1) j' hj'
      refine ⟨ihh.1, ?_⟩
      obtain ⟨pre, hpre⟩ := ihh.2
      refine ⟨Effect.printed ("Step " ++ toString i ++ "/" ++ toString t ++ ": " ++ e.name)
        :: (execute_entry e env inputs false).2.2 ++ pre, ?_⟩
      rw [hpre]
      have harith : i + 1 + j' = i + (j' + 1) := by omega
      simp [harith]
    · rw [if_neg hr] at h
      rw [if_neg hr]
      have hj0 : j = 0 := (Option.some.inj h).symm
      subst hj0
      exact ⟨rfl, Effect.printed ("Step " ++ toString i ++ "/" ++ toString t ++ ": " ++ e.name)
        :: (execute_entry e env inputs false).2.2, by simp⟩

/-- C5: `execute_playbook` runs steps in order with `confirm=false`
(the order and the `confirm=false` threading are embodied in
`firstFailingStep`, which replays `execute_entry` with `confirm:=false`
on the sequentially threaded inputs): the empty playbook succeeds; the
result is true exactly when no step fails; when the `j`-th step (0-based)
is the first to fail, the result is false and the trace ends with the
report naming the 1-indexed step number `j+1`, with no later step
executed; a successful head step hands control to the rest, and a failing
head step terminates the playbook immediately with the step-1 report. -/
theorem execute_playbook_spec (env : Env) (inputs : List String) :
    execute_playbook [] env inputs
      = (true, inputs, [Effect.successMsg "Playbook completed successfully"])
    ∧ (∀ entries, (execute_playbook entries env inputs).1 = true
        ↔ firstFailingStep env entries inputs = none)
    ∧ (∀ entries j, firstFailingStep env entries inputs = some j →
        (execute_playbook entries env inputs).1 = false
        ∧ ∃ pre, (execute_playbook entries env inputs).2.2
            = pre ++ [Effect.errorMsg ("Playbook failed at step " ++ toString (j + 1))])
    ∧ (∀ (e : Entry) (rest : List Entry), (execute_entry e env inputs false).1 = true →
        (execute_playbook (e :: rest) env inputs).1
          = (execute_playbook rest env (execute_entry e env inputs false).2.1).1)
    ∧ (∀ (e : Entry) (rest : List Entry), (execute_entry e env inputs false).1 = false →
        execute_playbook (e :: rest) env inputs
          = (false, (execute_entry e env inputs false).2.1,
             Effect.printed ("Step " ++ toString 1 ++ "/" ++ toString (e :: rest).length
                 ++ ": " ++ e.name)
               :: (execute_entry e env inputs false).2.2
               ++ [Effect.errorMsg "Playbook failed at step 1"])) := by
  refine ⟨rfl, fun entries => playbookGo_true_iff env entries inputs entries.length 1,
    fun entries j h => ?_, fun e rest h => ?_, fun e rest h => ?_⟩
  · have hf := playbookGo_fail env entries inputs entries.length 1 j h
    refine ⟨hf.1, ?_⟩
    obtain ⟨pre, hpre⟩ := hf.2
    exact ⟨pre, by rw [show (1 : Nat) + j = j + 1 by omega] at hpre; exact hpre⟩
  · show (playbookGo (e :: rest).length env (e :: rest) inputs 1).1 = _
    simp only [playbookGo]
    rw [if_pos h]
    exact (playbookGo_bool env rest _ _ _ _ _).1
  · show playbookGo (e :: rest).length env (e :: rest) inputs 1 = _
    simp only [playbookGo]
    rw [if_neg (by simp [h])]
    rfl

/-- Witness for `execute_playbook_spec`: a one-step playbook whose step
fails; the playbook reports failing step 1 and returns false. -/
theorem execute_playbook_spec_witness :
    (execute_playbook [{ type := "command", content := "bad" }]
      { runCommand := fun _ => (1, "", ""), httpSend := fun _ => none } []).1 = false
    ∧ ∃ pre, (execute_playbook [{ type := "command", content := "bad" }]
        { runCommand := fun _ => (1, "", ""), httpSend := fun _ => none } []).2.2
        = pre ++ [Effect.errorMsg ("Playbook failed at step " ++ toString (0 + 1))] :=
  (execute_playbook_spec
    { runCommand := fun _ => (1, "", ""), httpSend := fun _ => none } []).2.2.1
    [{ type := "command", content := "bad" }] 0 (by decide)

/-! ## Facts about the update, export and import paths -/

@[simp] theorem hasErrorMsg_append (a b : List Effect) (msg : String) :
    hasErrorMsg (a ++ b) msg = (hasErrorMsg a msg || hasErrorMsg b msg) :=
  List.any_append

@[simp] theorem hasErrorMsg_errorMsg (m : String) (l : List Effect) (msg : String) :
    hasErrorMsg (Effect.errorMsg m :: l) msg = ((m == msg) || hasErrorMsg l msg) := rfl

/-- C8: the pieces of the edit/update story, evaluated at a concrete
entry.  `models.update_entry` does protect `id`, `type` and `created_at`
and refreshes `updated_at` (last conjunct), but the CLI edit path hands
the whole edited document to the TinyDB merge, so an edit that rewrites
`type`, `id` or `created_at` is persisted — contradicting the claim. -/
theorem cli_edit_overwrites_protected_fields :
    (cli_edit_apply sampleStored sampleEdited "2024-06-01T00:00:00").type = "note"
    ∧ sampleStored.type = "command"
    ∧ (cli_edit_apply sampleStored sampleEdited "2024-06-01T00:00:00").id = "zzz99999"
    ∧ sampleStored.id = "abc12345"
    ∧ (cli_edit_apply sampleStored sampleEdited "2024-06-01T00:00:00").created_at
        = "1999-01-01T00:00:00"
    ∧ sampleStored.created_at = "2024-01-01T00:00:00"
    ∧ (cli_edit_apply sampleStored sampleEdited "2024-06-01T00:00:00").updated_at
        = "2024-06-01T00:00:00"
    ∧ (∀ (e : Entry) (u : UpdateRequest) (now : String),
        (models_update_entry e u now).id = e.id
        ∧ (models_update_entry e u now).type = e.type
        ∧ (models_update_entry e u now).created_at = e.created_at
        ∧ (models_update_entry e u now).updated_at = now) :=
  ⟨rfl, by decide, rfl, by decide, rfl, by decide, rfl,
   fun _ _ _ => ⟨rfl, rfl, rfl, rfl⟩⟩

theorem getField_setField_same (d : Doc) (k : String) (v : Json) :
    getField (setField d k v) k = some v := by
  induction d with
  | nil => simp [setField, getField]
  | cons p rest ih =>
    by_cases h : p.1 = k
    · simp [setField, getField, h]
    · simp [setField, getField, h, ih]

theorem getField_setField_other (d : Doc) (k k' : String) (v : Json) (h : k ≠ k') :
    getField (setField d k v) k' = getField d k' := by
  induction d with
  | nil => simp [setField, getField, h]
  | cons p rest ih =>
    by_cases hp : p.1 = k
    · subst hp
      simp [setField, getField, h, ih]
    · by_cases hk : p.1 = k'
      · simp [setField, getField, hp, hk, Ne.symm h]
      · simp [setField, getField, hp, hk, ih]

/-- C9: importing an exported entry inserts a record whose `type`, `name`,
`description`, `content`, `tags` (and `metadata`) fields are those of the
original, whose `id` is the freshly generated one (different from the
original id, which is discarded), and whose two timestamps are the import
time. -/
theorem export_import_round_trip (d : Doc) (newId now : String)
    (hreq : ∀ f ∈ importRequiredFields, (getField d f).isSome = true)
    (hid : getField d "id" ≠ some (Json.str newId)) :
    ∃ d', import_entry (export_entry d) newId now = some d'
      ∧ getField d' "type" = getField d "type"
      ∧ getField d' "name" = getField d "name"
      ∧ getField d' "description" = getField d "description"
      ∧ getField d' "content" = getField d "content"
      ∧ getField d' "tags" = getField d "tags"
      ∧ getField d' "metadata" = getField d "metadata"
      ∧ getField d' "id" = some (Json.str newId)
      ∧ getField d' "id" ≠ getField d "id"
      ∧ getField d' "created_at" = some (Json.str now)
      ∧ getField d' "updated_at" = some (Json.str now) := by
  have hall : (importRequiredFields.all fun f => (getField d f).isSome) = true := by
    rw [List.all_eq_true]
    exact hreq
  have himp : import_entry (export_entry d) newId now
      = some (setField (setField (setField d "id" (Json.str newId))
          "created_at" (Json.str now)) "updated_at" (Json.str now)) := by
    unfold import_entry export_entry
    rw [if_pos hall]
  have hid' : getField (setField (setField (setField d "id" (Json.str newId))
      "created_at" (Json.str now)) "updated_at" (Json.str now)) "id"
      = some (Json.str newId) := by
    rw [getField_setField_other _ _ _ _ (by decide),
      getField_setField_other _ _ _ _ (by decide), getField_setField_same]
  refine ⟨_, himp, ?ty, ?nm, ?ds, ?ct, ?tg, ?md, hid', ?ne, ?ca, ?ua⟩
  · rw [getField_setField_other _ _ _ _ (by decide),
      getField_setField_other _ _ _ _ (by decide),
      getField_setField_other _ _ _ _ (by decide)]
  · rw [getField_setField_other _ _ _ _ (by decide),
      getField_setField_other _ _ _ _ (by decide),
      getField_setField_other _ _ _ _ (by decide)]
  · rw [getField_setField_other _ _ _ _ (by decide),
      getField_setField_other _ _ _ _ (by decide),
      getField_setField_other _ _ _ _ (by decide)]
  · rw [getField_setField_other _ _ _ _ (by decide),
      getField_setField_other _ _ _ _ (by decide),
      getField_setField_other _ _ _ _ (by decide)]
  · rw [getField_setField_other _ _ _ _ (by decide),
      getField_setField_other _ _ _ _ (by decide),
      getField_setField_other _ _ _ _ (by decide)]
  · rw [getField_setField_other _ _ _ _ (by decide),
      getField_setField_other _ _ _ _ (by decide),
      getField_setField_other _ _ _ _ (by decide)]
  · rw [hid']
    exact fun hh => hid hh.symm
  · rw [getField_setField_other _ _ _ _ (by decide), getField_setField_same]
  · rw [getField_setField_same]

/-- Witness for `export_import_round_trip` at a concrete exported entry. -/
theorem export_import_round_trip_witness :
    ∃ d', import_entry (export_entry
        [("type", Json.str "command"), ("name", Json.str "n"),
         ("description", Json.str "ds"), ("content", Json.str "c"),
         ("id", Json.str "old")]) "newid" "2024-06-01T00:00:00" = some d'
      ∧ getField d' "type" = getField
          [("type", Json.str "command"), ("name", Json.str "n"),
           ("description", Json.str "ds"), ("content", Json.str "c"),
           ("id", Json.str "old")] "type"
      ∧ getField d' "name" = getField
          [("type", Json.str "command"), ("name", Json.str "n"),
           ("description", Json.str "ds"), ("content", Json.str "c"),
           ("id", Json.str "old")] "name"
      ∧ getField d' "description" = getField
          [("type", Json.str "command"), ("name", Json.str "n"),
           ("description", Json.str "ds"), ("content", Json.str "c"),
           ("id", Json.str "old")] "description"
      ∧ getField d' "content" = getField
          [("type", Json.str "command"), ("name", Json.str "n"),
           ("description", Json.str "ds"), ("content", Json.str "c"),
           ("id", Json.str "old")] "content"
      ∧ getField d' "tags" = getField
          [("type", Json.str "command"), ("name", Json.str "n"),
           ("description", Json.str "ds"), ("content", Json.str "c"),
           ("id", Json.str "old")] "tags"
      ∧ getField d' "metadata" = getField
          [("type", Json.str "command"), ("name", Json.str "n"),
           ("description", Json.str "ds"), ("content", Json.str "c"),
           ("id", Json.str "old")] "metadata"
      ∧ getField d' "id" = some (Json.str "newid")
      ∧ getField d' "id" ≠ getField
          [("type", Json.str "command"), ("name", Json.str "n"),
           ("description", Json.str "ds"), ("content", Json.str "c"),
           ("id", Json.str "old")] "id"
      ∧ getField d' "created_at" = some (Json.str "2024-06-01T00:00:00")
      ∧ getField d' "updated_at" = some (Json.str "2024-06-01T00:00:00") :=
  export_import_round_trip
    [("type", Json.str "command"), ("name", Json.str "n"),
     ("description", Json.str "ds"), ("content", Json.str "c"),
     ("id", Json.str "old")] "newid" "2024-06-01T00:00:00"
    (by decide)
    (by
      intro h
      rw [show getField
          [("type", Json.str "command"), ("name", Json.str "n"),
           ("description", Json.str "ds"), ("content", Json.str "c"),
           ("id", Json.str "old")] "id" = some (Json.str "old") from rfl] at h
      simp only [Option.some.injEq, Json.str.injEq] at h
      exact absurd h (by decide))

theorem dispatchEntry_unknown (e : Entry) (content : String) (env : Env)
    (inputs : List String) (b : Bool) (h : e.type ∉ ENTRY_TYPES) :
    dispatchEntry e content env inputs b
      = (false, inputs, [Effect.errorMsg ("Unknown entry type: " ++ e.type)]) := by
  simp only [ENTRY_TYPES, List.mem_cons, List.mem_singleton, not_or,
    List.not_mem_nil, or_false] at h
  obtain ⟨hcm, hap, hsn, hfl, hpb, hnt⟩ := h
  simp only [dispatchEntry]
  rw [if_neg hcm, if_neg hap, if_neg hsn, if_neg hnt, if_neg hfl, if_neg hpb]

theorem execute_entry_unknown_type (e : Entry) (env : Env) (inputs : List String)
    (b : Bool) (h : e.type ∉ ENTRY_TYPES) :
    (execute_entry e env inputs b).1 = false
    ∧ hasErrorMsg (execute_entry e env inputs b).2.2
        ("Unknown entry type: " ++ e.type) = true := by
  have h' : (resolveEntry e inputs).1.type ∉ ENTRY_TYPES := by
    rw [resolveEntry_type]; exact h
  have hd := dispatchEntry_unknown (resolveEntry e inputs).1
    (resolveEntry e inputs).2.1 env (resolveEntry e inputs).2.2.1 b h'
  rw [resolveEntry_type] at hd
  constructor
  · simp [execute_entry, hd]
  · simp [execute_entry, hd]

/-- C10: `import_entry` never validates `type`: a document with the four
required fields and the type `bogus` is inserted as-is (first conjunct),
even though `bogus` is outside the closed type set (second conjunct),
which only `create_entry` enforces (third conjunct); running such an
entry reports an unknown-entry-type failure (fourth conjunct). -/
theorem import_skips_type_validation :
    (∃ d', import_entry [("type", Json.str "bogus"), ("name", Json.str "n"),
        ("description", Json.str "ds"), ("content", Json.str "c")] "id1" "T1" = some d'
      ∧ getField d' "type" = some (Json.str "bogus"))
    ∧ "bogus" ∉ ENTRY_TYPES
    ∧ (∀ (t n ds c : String) (tg : Option (List String)) (md : Option Metadata)
        (i now : String), t ∉ ENTRY_TYPES → create_entry t n ds c tg md i now = none)
    ∧ (∀ (e : Entry) (env : Env) (inputs : List String) (b : Bool),
        e.type ∉ ENTRY_TYPES →
        (execute_entry e env inputs b).1 = false
        ∧ hasErrorMsg (execute_entry e env inputs b).2.2
            ("Unknown entry type: " ++ e.type) = true) := by
  refine ⟨⟨_, rfl, rfl⟩, by decide, ?_, ?_⟩
  · intro t n ds c tg md i now h
    unfold create_entry
    rw [if_neg h]
  · exact fun e env inputs b h => execute_entry_unknown_type e env inputs b h

/-- Witness for `import_skips_type_validation`: running a stored entry of
type `bogus` fails with the unknown-entry-type diagnostic. -/
theorem import_skips_type_validation_witness :
    (execute_entry { type := "bogus" }
      { runCommand := fun _ => (0, "", ""), httpSend := fun _ => none } [] true).1 = false
    ∧ hasErrorMsg (execute_entry { type := "bogus" }
        { runCommand := fun _ => (0, "", ""), httpSend := fun _ => none } [] true).2.2
        ("Unknown entry type: " ++ ({ type := "bogus" } : Entry).type) = true :=
  import_skips_type_validation.2.2.2
    { type := "bogus" }
    { runCommand := fun _ => (0, "", ""), httpSend := fun _ => none } [] true (by decide)

end DevVault
